import Mathlib

/-!
Shallow embedding of `neo4jAuraUtils.py`, a thin client that manages a
Neo4j Aura cloud instance over the vendor REST API: it reads credentials,
queries instance status, and requests pause/resume state transitions,
polling the status endpoint until the transition completes.

Modelling conventions:
* A Python dict with string keys and string values (the mutable
  `inst_info` mapping) is an association list with unique keys;
  `dget` is dictionary lookup, `dset` is `d[k] = v` (update the existing
  entry in place, else append, preserving insertion order, as Python
  dicts do).
* The network is an oracle `Env`: `Env.status n` is the `status` field of
  the response to the n-th GET of the run (counting from 0), and
  `Env.now n` is the `datetime.now().isoformat` string observed at that
  poll.  Requests issued on the wire are recorded as a trace of `Ev`
  events (GETs and POSTs with their URL); printed console output is a
  list of strings (timestamp prefixes, progress dots and sleeps carry no
  data and are elided).
* The unconditional `while` polling loop of `aura_change_state` is given
  fuel; `none` means the loop did not exit within the fuel, so a run that
  never reaches the target state returns `none` for every fuel.
-/

/-- A Python dict with string keys/values, as an insertion-ordered
association list. -/
abbrev Dict := List (String × String)

/-- Dictionary lookup, `d[k]` (`none` models a `KeyError`). -/
def dget (d : Dict) (k : String) : Option String :=
  match d with
  | [] => none
  | (k', v) :: t => if k' = k then some v else dget t k

/-- Dictionary assignment `d[k] = v`: replace the value at the first
occurrence of `k`, else append `(k, v)` at the end (Python dict
insertion-order semantics). -/
def dset (d : Dict) (k v : String) : Dict :=
  match d with
  | [] => [(k, v)]
  | (k', v') :: t => if k' = k then (k', v) :: t else (k', v') :: dset t k v

/-- A network request issued on the wire. -/
inductive Ev where
  | get (url : String)
  | post (url : String)
deriving DecidableEq, Repr

/-- Number of POST events in a trace. -/
def countPosts (evs : List Ev) : Nat :=
  evs.countP fun e => match e with | .post _ => true | .get _ => false

/-- Number of GET events in a trace. -/
def countGets (evs : List Ev) : Nat :=
  evs.countP fun e => match e with | .get _ => true | .post _ => false

/-- The remote-API oracle: `status n` is the `status` field returned by
the n-th GET of the run, `now n` the clock reading at that poll. -/
structure Env where
  status : Nat → String
  now : Nat → String

/-- The single-quote character, used in the printed messages. -/
def sqc : String := String.mk [Char.ofNat 39]

/-- The URL polled for instance state: `inst_info['aura_api'] + inst_info['id']`. -/
def getUrl (d : Dict) : String :=
  ((dget d "aura_api").getD "") ++ ((dget d "id").getD "")

/-- `aura_inst_state inst_info st now_`: the pure core of
`aura_inst_state(inst_info)` [src lines 85-89], given that the GET to
`aura_api + id` returned status `st` at clock reading `now_`.  It sets
`inst_info['status'] = st` and `inst_info['info_updated'] = now_` and
returns the updated mapping together with the GET event it issued. -/
def aura_inst_state (d : Dict) (st now_ : String) : Dict × Ev :=
  (dset (dset d "status" st) "info_updated" now_, Ev.get (getUrl d))

/-- Message printed when the instance is already in the requested state
[src line 116]. -/
def alreadyMsg (d : Dict) : String :=
  "Instance " ++ sqc ++ ((dget d "name").getD "") ++ sqc ++ " (id: " ++ sqc ++
    ((dget d "id").getD "") ++ sqc ++ ") is already " ++ sqc ++
    ((dget d "status").getD "") ++ sqc ++ "."

/-- Rejection message for unsupported state transitions [src line 124]. -/
def rejectMsg : String :=
  "Can only change instance state from " ++ sqc ++ "running" ++ sqc ++ " to " ++
    sqc ++ "paused" ++ sqc ++ ", or " ++ sqc ++ "paused" ++ sqc ++ " to " ++ sqc ++
    "running" ++ sqc ++ "."

/-- Message printed when a state change is requested [src lines 95-97]
(the leading timestamp is elided). -/
def requestingMsg (d : Dict) (new_state : String) : String :=
  "Requesting changing Aura instances for instance " ++ sqc ++
    ((dget d "name").getD "") ++ sqc ++ " (id: " ++ sqc ++
    ((dget d "id").getD "") ++ sqc ++ ") state from " ++ sqc ++
    ((dget d "status").getD "") ++ sqc ++ " to " ++ sqc ++ new_state ++ sqc

/-- Message printed when the transition has completed [src line 105]
(the leading timestamp is elided). -/
def doneMsg (d : Dict) (new_state : String) : String :=
  "Instance state for instance " ++ sqc ++ ((dget d "name").getD "") ++ sqc ++
    " (id: " ++ sqc ++ ((dget d "id").getD "") ++ sqc ++ ") is now " ++ sqc ++
    new_state ++ sqc

/-- The `while new_state != aura_inst_state(inst_info)['status']` polling
loop of `aura_change_state` [src lines 100-102].  `k` is the index of the
next GET of the run; the result is the final mapping, the index after the
last GET, and the trace of GETs issued.  `none` means the loop did not
exit within `fuel` iterations (the source has no timeout: the loop body
only prints a dot and sleeps 5 seconds). -/
def pollLoop (new_state : String) (env : Env) : Dict → Nat → Nat → Option (Dict × Nat × List Ev)
  | _, _, 0 => none
  | d, k, fuel + 1 =>
    let p := aura_inst_state d (env.status k) (env.now k)
    if dget p.1 "status" = some new_state then
      some (p.1, k + 1, [p.2])
    else
      match pollLoop new_state env p.1 (k + 1) fuel with
      | none => none
      | some (d2, k2, evs) => some (d2, k2, p.2 :: evs)

/-- `aura_change_state(new_state, inst_action, inst_info)` [src lines
92-109]: print the requesting message, POST to
`aura_api + id + "/" + inst_action`, then poll until the fetched status
equals `new_state`, then print the completion message.  The result is the
final mapping, the index after the last GET, the network trace (the POST
followed by the polling GETs), and the printed messages. -/
def aura_change_state (new_state inst_action : String) (d : Dict) (env : Env)
    (k fuel : Nat) : Option (Dict × Nat × List Ev × List String) :=
  match pollLoop new_state env d k fuel with
  | none => none
  | some (d2, k2, evs) =>
    some (d2, k2, Ev.post (getUrl d ++ "/" ++ inst_action) :: evs,
      [requestingMsg d new_state, doneMsg d2 new_state])

/-- `aura_request_state_change(new_state, inst_info)` [src lines
112-125]: refresh the status with `aura_inst_state` (GET number 0), then
either report that the instance is already in the target state, issue the
matching `resume`/`pause` action and poll, or reject the request.  The
result is the final mapping, the full network trace of the run, and the
printed messages (`none` only when a transition was issued and polling
never observed the target within the fuel). -/
def aura_request_state_change (new_state : String) (d : Dict) (env : Env)
    (fuel : Nat) : Option (Dict × List Ev × List String) :=
  let p := aura_inst_state d (env.status 0) (env.now 0)
  if dget p.1 "status" = some new_state then
    some (p.1, [p.2], [alreadyMsg p.1])
  else if new_state = "running" ∧ dget p.1 "status" = some "paused" then
    match aura_change_state new_state "resume" p.1 env 1 fuel with
    | none => none
    | some (d2, _, evs, out) => some (d2, p.2 :: evs, out)
  else if new_state = "paused" ∧ dget p.1 "status" = some "running" then
    match aura_change_state new_state "pause" p.1 env 1 fuel with
    | none => none
    | some (d2, _, evs, out) => some (d2, p.2 :: evs, out)
  else
    some (p.1, [p.2], [rejectMsg])

/-- `timedelta.seconds` of a nonnegative timedelta of `total` whole
seconds: Python normalizes a timedelta to days plus seconds in
`[0, 86400)`, so `.seconds` drops whole days. -/
def timedelta_seconds (total : Nat) : Nat := total % 86400

/-- The elapsed-time decomposition of `aura_change_state` [src lines
106-108]: `mm, ss = divmod(delta.seconds, 60); hh, mm = divmod(mm, 60)`,
returned as `(hh, mm, ss)`. -/
def elapsed_hms (total : Nat) : Nat × Nat × Nat :=
  let s := timedelta_seconds total
  let mm := s / 60
  let ss := s % 60
  let hh := mm / 60
  let mm2 := mm % 60
  (hh, mm2, ss)

/-- `patAt pat hay`: the pattern `pat` matches at the start of `hay`
(character-list prefix test, used to embed Python `str.find`). -/
def patAt : List Char → List Char → Bool
  | [], _ => true
  | _ :: _, [] => false
  | p :: ps, c :: cs => p = c && patAt ps cs

/-- First index at which `pat` matches in `hay`, if any (the core of
Python `str.find`). -/
def findAt (pat : List Char) : List Char → Option Nat
  | [] => if patAt pat [] then some 0 else none
  | c :: t => if patAt pat (c :: t) then some 0 else (findAt pat t).map (· + 1)

/-- Python `s.find(sub)`: first match index, or `-1` when absent. -/
def pyFind (s sub : String) : Int :=
  match findAt sub.data s.data with
  | some n => (n : Int)
  | none => -1

/-- Python slice `s[a:b]` on a character list: negative indices count
from the end, then both bounds are clamped to `[0, len]`. -/
def pySlice (s : List Char) (a b : Int) : List Char :=
  let n : Int := s.length
  let a1 : Int := if a < 0 then a + n else a
  let b1 : Int := if b < 0 then b + n else b
  let a2 : Nat := (max 0 (min a1 n)).toNat
  let b2 : Nat := (max 0 (min b1 n)).toNat
  (s.take b2).drop a2

/-- `aura_inst_id(aura_url)` [src lines 65-72]: pull the Aura instance id
out of the connection URI, as the slice between `find("//") + len("//")`
and `find(".")`. -/
def aura_inst_id (aura_url : String) : String :=
  let start := pyFind aura_url "//"
  let e := pyFind aura_url "."
  String.mk (pySlice aura_url.data (start + 2) e)

/-- The five `[AURA]` keys read from the `.ini` credentials file. -/
structure AuraConfig where
  aura_api : String
  aura_url : String
  aura_token_url : String
  aura_api_client_id : String
  aura_client_secret : String

/-- Error message printed when the credentials file is missing [src line
44] (the braces are literal text in the source: the string is not an
f-string). -/
def missingFileMsg : String :=
  "Awww... Snap!\nERROR: Could not find database properties file: \x7bNEO4J_PROPERTIES_FILE\x7d "

/-- Message printed when the credentials file was read [src line 41]. -/
def usingFileMsg (p : String) : String :=
  "Using AURA_API, AURA_URL, AURA_TOKEN_URL, AURA_API_CLIENT_ID, AURA_CLIENT_SECRET from "
    ++ p ++ " file"

/-- `read_neo4j_properties(NEO4J_PROPERTIES_FILE)` [src lines 9-44].
`fileExists` embeds `os.path.exists`, `getConfig` the parsed `[AURA]`
section of the file.  Returns the printed output and the result: the
five-element credentials tuple, or `none` (Python falls off the `else`
branch and implicitly returns `None`). -/
def read_neo4j_properties (fileExists : String → Bool)
    (getConfig : String → AuraConfig) (path : Option String) :
    List String × Option (String × String × String × String × String) :=
  match path with
  | some p =>
    if fileExists p then
      let c := getConfig p
      ([usingFileMsg p],
        some (c.aura_api, c.aura_url, c.aura_token_url, c.aura_api_client_id,
          c.aura_client_secret))
    else
      ([missingFileMsg], none)
  | none => ([missingFileMsg], none)

/-- `aura_set_request_header` [src lines 47-62], given the `access_token`
field of the token-endpoint response. -/
def aura_set_request_header (access_token : String) : Dict :=
  [("Authorization", "Bearer " ++ access_token),
   ("accept", "application/json"),
   ("Content-Type", "application/json")]

/-- Opaque string rendering of a nested dict value (the `headers` dict is
stored inside `inst_info`, whose values we model as strings). -/
def renderDict (h : Dict) : String :=
  String.intercalate ";" (h.map fun kv => kv.1 ++ "=" ++ kv.2)

/-- `aura_inst_info(aura_api, inst_id, headers)` [src lines 75-82], given
the `data` object of the response to the GET at `aura_api + inst_id` and
the clock reading: extend it with `aura_api`, `headers` and
`info_updated`, and return it with the GET event issued. -/
def aura_inst_info (instData : Dict) (aura_api inst_id : String)
    (headers : Dict) (now_ : String) : Dict × Ev :=
  (dset (dset (dset instData "aura_api" aura_api) "headers" (renderDict headers))
    "info_updated" now_, Ev.get (aura_api ++ inst_id))

/-- `aura_api_connect(dot_ini_file)` [src lines 127-134]: read the
credentials, unpack them as a five-tuple, build the auth header, derive
the instance id and fetch the instance info.  When
`read_neo4j_properties` returns `None`, the unpacking raises
`TypeError: cannot unpack non-iterable NoneType object`, embedded as
`Except.error`.  `access_token`, `instData` and `now_` are the network
and clock oracles for the rest of the call. -/
def aura_api_connect (fileExists : String → Bool)
    (getConfig : String → AuraConfig) (access_token : String)
    (instData : Dict) (now_ : String) (dot_ini_file : Option String) :
    Except String Dict :=
  match (read_neo4j_properties fileExists getConfig dot_ini_file).2 with
  | none => .error "TypeError: cannot unpack non-iterable NoneType object"
  | some (aura_api, aura_url, _, _, _) =>
    let aura_headers := aura_set_request_header access_token
    let inst_id := aura_inst_id aura_url
    .ok (aura_inst_info instData aura_api inst_id aura_headers now_).1

/-! ## Dictionary lemmas -/

theorem dget_dset_self (d : Dict) (k v : String) : dget (dset d k v) k = some v := by
  induction d with
  | nil => simp [dget, dset]
  | cons kv t ih =>
    obtain ⟨k', v'⟩ := kv
    by_cases h : k' = k
    · subst h
      simp [dget, dset]
    · simp [dget, dset, h, ih]

theorem dget_dset_ne (d : Dict) (k v k2 : String) (h : k ≠ k2) :
    dget (dset d k v) k2 = dget d k2 := by
  induction d with
  | nil => simp [dget, dset, h]
  | cons kv t ih =>
    obtain ⟨k', v'⟩ := kv
    by_cases hk : k' = k
    · subst hk
      simp [dget, dset, h]
    · by_cases hk2 : k' = k2
      · subst hk2
        simp [dget, dset, hk]
      · simp [dget, dset, hk, hk2, ih]

/-! ## Frame lemmas for `aura_inst_state` -/

theorem state_status (d : Dict) (st t : String) :
    dget (aura_inst_state d st t).1 "status" = some st := by
  show dget (dset (dset d "status" st) "info_updated" t) "status" = some st
  rw [dget_dset_ne _ _ _ _ (by decide), dget_dset_self]

theorem state_updated (d : Dict) (st t : String) :
    dget (aura_inst_state d st t).1 "info_updated" = some t :=
  dget_dset_self _ _ _

theorem state_frame (d : Dict) (st t key : String) (h1 : key ≠ "status")
    (h2 : key ≠ "info_updated") :
    dget (aura_inst_state d st t).1 key = dget d key := by
  show dget (dset (dset d "status" st) "info_updated" t) key = dget d key
  rw [dget_dset_ne _ _ _ _ (Ne.symm h2), dget_dset_ne _ _ _ _ (Ne.symm h1)]

theorem state_ev (d : Dict) (st t : String) :
    (aura_inst_state d st t).2 = Ev.get (getUrl d) := rfl

theorem getUrl_state (d : Dict) (st t : String) :
    getUrl (aura_inst_state d st t).1 = getUrl d := by
  unfold getUrl
  rw [state_frame _ _ _ _ (by decide) (by decide),
    state_frame _ _ _ _ (by decide) (by decide)]

/-! ## Trace-counting lemmas -/

theorem countPosts_cons_get (u : String) (l : List Ev) :
    countPosts (Ev.get u :: l) = countPosts l := by
  simp [countPosts, List.countP_cons]

theorem countPosts_cons_post (u : String) (l : List Ev) :
    countPosts (Ev.post u :: l) = countPosts l + 1 := by
  simp [countPosts, List.countP_cons]

theorem countGets_cons_get (u : String) (l : List Ev) :
    countGets (Ev.get u :: l) = countGets l + 1 := by
  simp [countGets, List.countP_cons]

theorem countGets_cons_post (u : String) (l : List Ev) :
    countGets (Ev.post u :: l) = countGets l := by
  simp [countGets, List.countP_cons]

theorem countPosts_replicate (m : Nat) (u : String) :
    countPosts (List.replicate m (Ev.get u)) = 0 := by
  induction m with
  | zero => rfl
  | succ m ih => rw [List.replicate_succ, countPosts_cons_get, ih]

theorem countGets_replicate (m : Nat) (u : String) :
    countGets (List.replicate m (Ev.get u)) = m := by
  induction m with
  | zero => rfl
  | succ m ih => rw [List.replicate_succ, countGets_cons_get, ih]

/-! ## Specification of the polling loop -/

theorem pollLoop_spec (new_state : String) (env : Env) :
    ∀ (fuel : Nat) (d : Dict) (k : Nat) (d' : Dict) (k' : Nat) (evs : List Ev),
      pollLoop new_state env d k fuel = some (d', k', evs) →
      ∃ n : Nat, k' = k + n + 1 ∧
        (∀ i, i < n → env.status (k + i) ≠ new_state) ∧
        env.status (k + n) = new_state ∧
        evs = List.replicate (n + 1) (Ev.get (getUrl d)) ∧
        dget d' "status" = some (env.status (k + n)) ∧
        dget d' "info_updated" = some (env.now (k + n)) ∧
        (∀ key, key ≠ "status" → key ≠ "info_updated" → dget d' key = dget d key) := by
  intro fuel
  induction fuel with
  | zero =>
    intro d k d' k' evs h
    simp [pollLoop] at h
  | succ fuel ih =>
    intro d k d' k' evs h
    simp only [pollLoop, state_status, state_ev, Option.some.injEq] at h
    split at h
    · rename_i hc
      simp only [Option.some.injEq, Prod.mk.injEq] at h
      obtain ⟨hd, hk, hevs⟩ := h
      subst hd
      subst hk
      subst hevs
      refine ⟨0, by omega, by omega, by simpa using hc, ?_, ?_, ?_, ?_⟩
      · rfl
      · rw [state_status, Nat.add_zero]
      · rw [state_updated, Nat.add_zero]
      · intro key hst hupd
        rw [state_frame _ _ _ _ hst hupd]
    · rename_i hc
      split at h
      · exact absurd h (by simp)
      · rename_i d2 k2 evs2 heq
        simp only [Option.some.injEq, Prod.mk.injEq] at h
        obtain ⟨hd, hk, hevs⟩ := h
        subst hd
        subst hk
        subst hevs
        obtain ⟨n', hkn, hlt, hnst, hevs2, hst2, hupd2, hframe2⟩ := ih _ _ _ _ _ heq
        refine ⟨n' + 1, by omega, ?_, ?_, ?_, ?_, ?_, ?_⟩
        · intro i hi
          cases i with
          | zero =>
            simp only [Nat.add_zero]
            simpa using hc
          | succ i' =>
            have he : k + (i' + 1) = (k + 1) + i' := by omega
            rw [he]
            exact hlt i' (by omega)
        · have he : k + (n' + 1) = (k + 1) + n' := by omega
          rw [he]
          exact hnst
        · rw [hevs2, getUrl_state, ← List.replicate_succ]
        · have he : k + (n' + 1) = (k + 1) + n' := by omega
          rw [he]
          exact hst2
        · have he : k + (n' + 1) = (k + 1) + n' := by omega
          rw [he]
          exact hupd2
        · intro key hstk hupdk
          rw [hframe2 key hstk hupdk, state_frame _ _ _ _ hstk hupdk]

theorem pollLoop_never (new_state : String) (env : Env)
    (hnever : ∀ n, env.status n ≠ new_state) :
    ∀ (fuel : Nat) (d : Dict) (k : Nat), pollLoop new_state env d k fuel = none := by
  intro fuel
  induction fuel with
  | zero => intro d k; rfl
  | succ fuel ih =>
    intro d k
    simp only [pollLoop, state_status, Option.some.injEq]
    rw [if_neg (by simpa using hnever k), ih]

/-! ## Runs of `aura_request_state_change` through a valid transition -/

theorem arsc_transition (env : Env) (new_state act : String) (d : Dict)
    (fuel : Nat) (d' : Dict) (net : List Ev) (out : List String)
    (hcase : (env.status 0 = "paused" ∧ new_state = "running" ∧ act = "resume") ∨
             (env.status 0 = "running" ∧ new_state = "paused" ∧ act = "pause"))
    (hrun : aura_request_state_change new_state d env fuel = some (d', net, out)) :
    ∃ n : Nat,
      net = Ev.get (getUrl d) :: Ev.post (getUrl d ++ "/" ++ act) ::
        List.replicate (n + 1) (Ev.get (getUrl d)) ∧
      (∀ i, i < n → env.status (1 + i) ≠ new_state) ∧
      env.status (1 + n) = new_state ∧
      dget d' "status" = some (env.status (1 + n)) ∧
      dget d' "info_updated" = some (env.now (1 + n)) ∧
      (∀ key, key ≠ "status" → key ≠ "info_updated" → dget d' key = dget d key) := by
  rcases hcase with ⟨h0, h1, h2⟩ | ⟨h0, h1, h2⟩
  · subst h1
    subst h2
    simp only [aura_request_state_change, state_status, state_ev] at hrun
    rw [h0] at hrun
    rw [if_neg (by decide), if_pos (by decide)] at hrun
    split at hrun
    · exact absurd hrun (by simp)
    · rename_i d2 k2 evs2 out2 heq
      simp only [Option.some.injEq, Prod.mk.injEq] at hrun
      obtain ⟨hd, hnet, hout⟩ := hrun
      subst hd
      subst hnet
      subst hout
      simp only [aura_change_state] at heq
      split at heq
      · exact absurd heq (by simp)
      · rename_i d3 k3 evs3 hpoll
        simp only [Option.some.injEq, Prod.mk.injEq] at heq
        obtain ⟨hd3, hk3, hevs3, hout3⟩ := heq
        subst hd3
        subst hevs3
        obtain ⟨n, hkn, hlt, hn, hevs, hst, hupd, hframe⟩ :=
          pollLoop_spec _ env fuel _ 1 _ _ _ hpoll
        refine ⟨n, ?_, hlt, hn, hst, hupd, ?_⟩
        · rw [hevs, getUrl_state]
        · intro key hstk hupdk
          rw [hframe key hstk hupdk, state_frame _ _ _ _ hstk hupdk]
  · subst h1
    subst h2
    simp only [aura_request_state_change, state_status, state_ev] at hrun
    rw [h0] at hrun
    rw [if_neg (by decide), if_neg (by decide), if_pos (by decide)] at hrun
    split at hrun
    · exact absurd hrun (by simp)
    · rename_i d2 k2 evs2 out2 heq
      simp only [Option.some.injEq, Prod.mk.injEq] at hrun
      obtain ⟨hd, hnet, hout⟩ := hrun
      subst hd
      subst hnet
      subst hout
      simp only [aura_change_state] at heq
      split at heq
      · exact absurd heq (by simp)
      · rename_i d3 k3 evs3 hpoll
        simp only [Option.some.injEq, Prod.mk.injEq] at heq
        obtain ⟨hd3, hk3, hevs3, hout3⟩ := heq
        subst hd3
        subst hevs3
        obtain ⟨n, hkn, hlt, hn, hevs, hst, hupd, hframe⟩ :=
          pollLoop_spec _ env fuel _ 1 _ _ _ hpoll
        refine ⟨n, ?_, hlt, hn, hst, hupd, ?_⟩
        · rw [hevs, getUrl_state]
        · intro key hstk hupdk
          rw [hframe key hstk hupdk, state_frame _ _ _ _ hstk hupdk]

/-! ## Concrete test fixtures -/

/-- A well-formed instance-info mapping, currently paused. -/
def testDict : Dict :=
  [("id", "abc"), ("name", "inst1"), ("status", "paused"),
   ("aura_api", "apiBase/"), ("headers", "H"), ("info_updated", "t0")]

/-- An oracle whose first poll reports `paused` and every later poll
`running`. -/
def testEnvResume : Env :=
  ⟨fun n => if n = 0 then "paused" else "running", fun n => "T" ++ toString n⟩

/-- An oracle that reports `paused` forever. -/
def testEnvStuck : Env :=
  ⟨fun _ => "paused", fun n => "T" ++ toString n⟩

/-- `testDict` after the run driven by `testEnvResume` completes. -/
def testDictAfter : Dict :=
  [("id", "abc"), ("name", "inst1"), ("status", "running"),
   ("aura_api", "apiBase/"), ("headers", "H"), ("info_updated", "T1")]

/-- `testDict` after the initial refresh of `aura_request_state_change`
under `testEnvResume`. -/
def testDictRefreshed : Dict :=
  [("id", "abc"), ("name", "inst1"), ("status", "paused"),
   ("aura_api", "apiBase/"), ("headers", "H"), ("info_updated", "T0")]

/-- C1: for a freshly polled status `paused` with target `running`
(respectively `running`/`paused`), `aura_request_state_change` issues
exactly one POST, to `aura_api + id + "/resume"` (respectively
`"/pause"`), and that POST is followed by repeated status GETs until the
fetched status equals the target. -/
theorem aura_request_state_change_valid_transition (env : Env)
    (new_state act api id_ : String) (d : Dict) (fuel : Nat) (d' : Dict)
    (net : List Ev) (out : List String)
    (hapi : dget d "aura_api" = some api) (hid : dget d "id" = some id_)
    (hcase : (env.status 0 = "paused" ∧ new_state = "running" ∧ act = "resume") ∨
             (env.status 0 = "running" ∧ new_state = "paused" ∧ act = "pause"))
    (hrun : aura_request_state_change new_state d env fuel = some (d', net, out)) :
    ∃ n : Nat,
      net = Ev.get (api ++ id_) :: Ev.post (api ++ id_ ++ "/" ++ act) ::
        List.replicate (n + 1) (Ev.get (api ++ id_)) ∧
      countPosts net = 1 ∧
      (∀ i, i < n → env.status (1 + i) ≠ new_state) ∧
      env.status (1 + n) = new_state := by
  have hurl : getUrl d = api ++ id_ := by
    unfold getUrl
    rw [hapi, hid]
    rfl
  obtain ⟨n, hnet, hlt, hn, _, _, _⟩ :=
    arsc_transition env new_state act d fuel d' net out hcase hrun
  refine ⟨n, ?_, ?_, hlt, hn⟩
  · rw [hnet, hurl]
  · rw [hnet, countPosts_cons_get, countPosts_cons_post, countPosts_replicate]

/-- Witness for C1: a concrete paused→running run under `testEnvResume`. -/
theorem aura_request_state_change_valid_transition_witness :
    ∃ n : Nat,
      ([Ev.get "apiBase/abc", Ev.post "apiBase/abc/resume",
        Ev.get "apiBase/abc"] : List Ev) =
        Ev.get ("apiBase/" ++ "abc") :: Ev.post ("apiBase/" ++ "abc" ++ "/" ++ "resume") ::
          List.replicate (n + 1) (Ev.get ("apiBase/" ++ "abc")) ∧
      countPosts [Ev.get "apiBase/abc", Ev.post "apiBase/abc/resume",
        Ev.get "apiBase/abc"] = 1 ∧
      (∀ i, i < n → testEnvResume.status (1 + i) ≠ "running") ∧
      testEnvResume.status (1 + n) = "running" :=
  aura_request_state_change_valid_transition testEnvResume "running" "resume"
    "apiBase/" "abc" testDict 5 testDictAfter
    [Ev.get "apiBase/abc", Ev.post "apiBase/abc/resume", Ev.get "apiBase/abc"]
    [requestingMsg testDictRefreshed "running", doneMsg testDictAfter "running"]
    (by decide) (by decide) (Or.inl ⟨rfl, rfl, rfl⟩) (by decide)

/-- C2: `aura_change_state` returns only when the most recently fetched
status equals the target (`status` of the result and the last polled
response both equal `new_state`), and under an oracle that never reports
the target it never exits, for any fuel bound. -/
theorem aura_change_state_polls_until_target :
    (∀ (env : Env) (new_state act : String) (d : Dict) (k fuel : Nat)
        (d' : Dict) (k' : Nat) (net : List Ev) (out : List String),
        aura_change_state new_state act d env k fuel = some (d', k', net, out) →
        dget d' "status" = some new_state ∧ env.status (k' - 1) = new_state) ∧
    (∀ (env : Env) (new_state act : String) (d : Dict) (k fuel : Nat),
        (∀ n, env.status n ≠ new_state) →
        aura_change_state new_state act d env k fuel = none) := by
  constructor
  · intro env new_state act d k fuel d' k' net out h
    simp only [aura_change_state] at h
    split at h
    · exact absurd h (by simp)
    · rename_i d2 k2 evs2 hpoll
      simp only [Option.some.injEq, Prod.mk.injEq] at h
      obtain ⟨hd, hk, _, _⟩ := h
      subst hd
      subst hk
      obtain ⟨n, hkn, _, hn, _, hst, _, _⟩ := pollLoop_spec _ env fuel _ k _ _ _ hpoll
      subst hkn
      have he : k + n + 1 - 1 = k + n := by omega
      rw [he]
      rw [hn] at hst
      exact ⟨hst, hn⟩
  · intro env new_state act d k fuel hnever
    simp only [aura_change_state]
    rw [pollLoop_never new_state env hnever]

/-- Witness for C2: a concrete terminating run under `testEnvResume`,
and a concrete non-terminating run under `testEnvStuck`. -/
theorem aura_change_state_polls_until_target_witness :
    (dget testDictAfter "status" = some "running" ∧
      testEnvResume.status (2 - 1) = "running") ∧
    aura_change_state "running" "resume" testDict testEnvStuck 1 3 = none :=
  ⟨aura_change_state_polls_until_target.1 testEnvResume "running" "resume"
      testDict 1 3 testDictAfter 2
      [Ev.post "apiBase/abc/resume", Ev.get "apiBase/abc"]
      [requestingMsg testDict "running", doneMsg testDictAfter "running"]
      (by decide),
   aura_change_state_polls_until_target.2 testEnvStuck "running" "resume"
      testDict 1 3 (fun n => (by decide : ("paused" : String) ≠ "running"))⟩

theorem countPosts_nil : countPosts [] = 0 := rfl

theorem countGets_nil : countGets [] = 0 := rfl

/-- The already-in-target branch of `aura_request_state_change`. -/
theorem arsc_already (new_state : String) (d : Dict) (env : Env) (fuel : Nat)
    (h : env.status 0 = new_state) :
    aura_request_state_change new_state d env fuel =
      some ((aura_inst_state d (env.status 0) (env.now 0)).1, [Ev.get (getUrl d)],
        [alreadyMsg (aura_inst_state d (env.status 0) (env.now 0)).1]) := by
  simp only [aura_request_state_change, state_status, state_ev]
  rw [if_pos (by rw [h])]

/-- The rejection branch of `aura_request_state_change`. -/
theorem arsc_rejection (new_state : String) (d : Dict) (env : Env) (fuel : Nat)
    (h1 : env.status 0 ≠ new_state)
    (h2 : ¬(new_state = "running" ∧ env.status 0 = "paused"))
    (h3 : ¬(new_state = "paused" ∧ env.status 0 = "running")) :
    aura_request_state_change new_state d env fuel =
      some ((aura_inst_state d (env.status 0) (env.now 0)).1, [Ev.get (getUrl d)],
        [rejectMsg]) := by
  simp only [aura_request_state_change, state_status, state_ev]
  rw [if_neg (by simpa using h1), if_neg (by simpa using h2),
    if_neg (by simpa using h3)]

/-- C3: when the freshly polled status already equals the requested
target, `aura_request_state_change` issues no POST: its network trace is
the single refresh GET, and it only reports that the instance is already
in that state. -/
theorem aura_request_state_change_already_no_post (new_state : String)
    (d : Dict) (env : Env) (fuel : Nat) (h : env.status 0 = new_state) :
    aura_request_state_change new_state d env fuel =
      some ((aura_inst_state d (env.status 0) (env.now 0)).1, [Ev.get (getUrl d)],
        [alreadyMsg (aura_inst_state d (env.status 0) (env.now 0)).1]) ∧
    countPosts [Ev.get (getUrl d)] = 0 :=
  ⟨arsc_already new_state d env fuel h,
   by rw [countPosts_cons_get, countPosts_nil]⟩

/-- An oracle that always reports `running` (instance already in the
target state). -/
def testEnvNoop : Env := ⟨fun _ => "running", fun _ => "T0"⟩

/-- A well-formed instance-info mapping, currently running. -/
def testDictRunning : Dict :=
  [("id", "abc"), ("name", "inst1"), ("status", "running"),
   ("aura_api", "apiBase/"), ("headers", "H"), ("info_updated", "t0")]

/-- `testDictRunning` after the refresh under `testEnvNoop`. -/
def testDictRunningAfter : Dict :=
  [("id", "abc"), ("name", "inst1"), ("status", "running"),
   ("aura_api", "apiBase/"), ("headers", "H"), ("info_updated", "T0")]

/-- Witness for C3: a concrete already-running request. -/
theorem aura_request_state_change_already_no_post_witness :
    aura_request_state_change "running" testDictRunning testEnvNoop 1 =
      some ((aura_inst_state testDictRunning (testEnvNoop.status 0)
          (testEnvNoop.now 0)).1,
        [Ev.get (getUrl testDictRunning)],
        [alreadyMsg (aura_inst_state testDictRunning (testEnvNoop.status 0)
          (testEnvNoop.now 0)).1]) ∧
    countPosts [Ev.get (getUrl testDictRunning)] = 0 :=
  aura_request_state_change_already_no_post "running" testDictRunning
    testEnvNoop 1 rfl

/-- C4: for every (freshly polled status, target) pair other than
paused→running and running→paused, `aura_request_state_change` issues no
POST and prints the rejection message saying only paused↔running
transitions are supported. -/
theorem aura_request_state_change_reject (new_state : String) (d : Dict)
    (env : Env) (fuel : Nat)
    (h1 : env.status 0 ≠ new_state)
    (h2 : ¬(new_state = "running" ∧ env.status 0 = "paused"))
    (h3 : ¬(new_state = "paused" ∧ env.status 0 = "running")) :
    aura_request_state_change new_state d env fuel =
      some ((aura_inst_state d (env.status 0) (env.now 0)).1, [Ev.get (getUrl d)],
        [rejectMsg]) ∧
    countPosts [Ev.get (getUrl d)] = 0 :=
  ⟨arsc_rejection new_state d env fuel h1 h2 h3,
   by rw [countPosts_cons_get, countPosts_nil]⟩

/-- An oracle that reports the non-standard status `creating`. -/
def testEnvOther : Env := ⟨fun _ => "creating", fun _ => "T0"⟩

/-- Witness for C4: requesting `paused` while the instance is `creating`. -/
theorem aura_request_state_change_reject_witness :
    aura_request_state_change "paused" testDict testEnvOther 1 =
      some ((aura_inst_state testDict (testEnvOther.status 0)
          (testEnvOther.now 0)).1,
        [Ev.get (getUrl testDict)], [rejectMsg]) ∧
    countPosts [Ev.get (getUrl testDict)] = 0 :=
  aura_request_state_change_reject "paused" testDict testEnvOther 1
    (by decide) (by decide) (by decide)

/-- Counterexample to C5 as stated: even when the polled status already
equals the target, the initial refresh overwrites `info_updated` (and
rewrites `status`), so the mapping is not left entirely unchanged. -/
theorem aura_request_state_change_already_mutates :
    aura_request_state_change "running" testDictRunning testEnvNoop 1 =
      some (testDictRunningAfter, [Ev.get "apiBase/abc"],
        [alreadyMsg testDictRunningAfter]) ∧
    dget testDictRunning "info_updated" = some "t0" ∧
    dget testDictRunningAfter "info_updated" = some "T0" ∧
    testDictRunningAfter ≠ testDictRunning := by decide

/-- C5 (amended): when the freshly polled status equals the target,
`aura_request_state_change` issues no POST and, apart from the initial
refresh setting `status` to the polled value (the target) and
`info_updated` to the poll timestamp, leaves the mapping unchanged. -/
theorem aura_request_state_change_already_frame (new_state : String)
    (d : Dict) (env : Env) (fuel : Nat) (h : env.status 0 = new_state) :
    aura_request_state_change new_state d env fuel =
      some ((aura_inst_state d (env.status 0) (env.now 0)).1, [Ev.get (getUrl d)],
        [alreadyMsg (aura_inst_state d (env.status 0) (env.now 0)).1]) ∧
    countPosts [Ev.get (getUrl d)] = 0 ∧
    dget (aura_inst_state d (env.status 0) (env.now 0)).1 "status" = some new_state ∧
    dget (aura_inst_state d (env.status 0) (env.now 0)).1 "info_updated" =
      some (env.now 0) ∧
    (∀ key, key ≠ "status" → key ≠ "info_updated" →
      dget (aura_inst_state d (env.status 0) (env.now 0)).1 key = dget d key) :=
  ⟨arsc_already new_state d env fuel h,
   by rw [countPosts_cons_get, countPosts_nil],
   by rw [state_status, h],
   state_updated _ _ _,
   fun key h1 h2 => state_frame _ _ _ _ h1 h2⟩

/-- Witness for the amended C5: the concrete already-running request. -/
theorem aura_request_state_change_already_frame_witness :
    aura_request_state_change "running" testDictRunning testEnvNoop 1 =
      some ((aura_inst_state testDictRunning (testEnvNoop.status 0)
          (testEnvNoop.now 0)).1,
        [Ev.get (getUrl testDictRunning)],
        [alreadyMsg (aura_inst_state testDictRunning (testEnvNoop.status 0)
          (testEnvNoop.now 0)).1]) ∧
    countPosts [Ev.get (getUrl testDictRunning)] = 0 ∧
    dget (aura_inst_state testDictRunning (testEnvNoop.status 0)
      (testEnvNoop.now 0)).1 "status" = some "running" ∧
    dget (aura_inst_state testDictRunning (testEnvNoop.status 0)
      (testEnvNoop.now 0)).1 "info_updated" = some (testEnvNoop.now 0) ∧
    (∀ key, key ≠ "status" → key ≠ "info_updated" →
      dget (aura_inst_state testDictRunning (testEnvNoop.status 0)
        (testEnvNoop.now 0)).1 key = dget testDictRunning key) :=
  aura_request_state_change_already_frame "running" testDictRunning
    testEnvNoop 1 rfl

/-- The `status` field after a completed `aura_change_state` equals the
response of its last polling GET, whose index is recoverable from the
GET count of its trace. -/
theorem acs_countGets (env : Env) (ns act : String) (d1 : Dict) (k fuel : Nat)
    (d2 : Dict) (k2 : Nat) (evs2 : List Ev) (out2 : List String)
    (h : aura_change_state ns act d1 env k fuel = some (d2, k2, evs2, out2)) :
    ∃ n, countGets evs2 = n + 1 ∧ dget d2 "status" = some (env.status (k + n)) := by
  simp only [aura_change_state] at h
  split at h
  · exact absurd h (by simp)
  · rename_i d3 k3 evs3 hpoll
    simp only [Option.some.injEq, Prod.mk.injEq] at h
    obtain ⟨hd, hk, hevs, hout⟩ := h
    subst hd
    subst hevs
    obtain ⟨n, _, _, _, hevs3, hst, _, _⟩ := pollLoop_spec _ env fuel _ k _ _ _ hpoll
    refine ⟨n, ?_, hst⟩
    rw [countGets_cons_post, hevs3, countGets_replicate]

/-- C6: after every operation that polls the remote API — `aura_inst_state`
itself, the polling loop of `aura_change_state`, and a completed
`aura_request_state_change` — the `status` field of the mapping equals the
status returned by the most recent poll (the last GET of the trace). -/
theorem status_reflects_most_recent_poll :
    (∀ (d : Dict) (st t : String),
        dget (aura_inst_state d st t).1 "status" = some st) ∧
    (∀ (env : Env) (ns : String) (fuel : Nat) (d : Dict) (k : Nat) (d' : Dict)
        (k' : Nat) (evs : List Ev),
        pollLoop ns env d k fuel = some (d', k', evs) →
        dget d' "status" = some (env.status (k' - 1))) ∧
    (∀ (env : Env) (ns : String) (fuel : Nat) (d d' : Dict) (net : List Ev)
        (out : List String),
        aura_request_state_change ns d env fuel = some (d', net, out) →
        dget d' "status" = some (env.status (countGets net - 1))) := by
  refine ⟨fun d st t => state_status d st t, ?_, ?_⟩
  · intro env ns fuel d k d' k' evs h
    obtain ⟨n, hkn, _, _, _, hst, _, _⟩ := pollLoop_spec _ env fuel _ k _ _ _ h
    subst hkn
    have he : k + n + 1 - 1 = k + n := by omega
    rw [he]
    exact hst
  · intro env ns fuel d d' net out h
    simp only [aura_request_state_change, state_status, state_ev] at h
    split at h
    · rename_i hc
      simp only [Option.some.injEq, Prod.mk.injEq] at h
      obtain ⟨hd, hnet, hout⟩ := h
      subst hd
      subst hnet
      have h1 : countGets [Ev.get (getUrl d)] - 1 = 0 := by
        rw [countGets_cons_get, countGets_nil]
      rw [h1, state_status]
    · split at h
      · split at h
        · exact absurd h (by simp)
        · rename_i d2 k2 evs2 out2 heq
          simp only [Option.some.injEq, Prod.mk.injEq] at h
          obtain ⟨hd, hnet, hout⟩ := h
          subst hd
          subst hnet
          obtain ⟨n, hcg, hst⟩ := acs_countGets env ns "resume" _ 1 fuel d2 k2 evs2 out2 heq
          rw [countGets_cons_get, hcg]
          have he : n + 1 + 1 - 1 = 1 + n := by omega
          rw [he]
          exact hst
      · split at h
        · split at h
          · exact absurd h (by simp)
          · rename_i d2 k2 evs2 out2 heq
            simp only [Option.some.injEq, Prod.mk.injEq] at h
            obtain ⟨hd, hnet, hout⟩ := h
            subst hd
            subst hnet
            obtain ⟨n, hcg, hst⟩ := acs_countGets env ns "pause" _ 1 fuel d2 k2 evs2 out2 heq
            rw [countGets_cons_get, hcg]
            have he : n + 1 + 1 - 1 = 1 + n := by omega
            rw [he]
            exact hst
        · simp only [Option.some.injEq, Prod.mk.injEq] at h
          obtain ⟨hd, hnet, hout⟩ := h
          subst hd
          subst hnet
          have h1 : countGets [Ev.get (getUrl d)] - 1 = 0 := by
            rw [countGets_cons_get, countGets_nil]
          rw [h1, state_status]

/-- Witness for C6: the three conjuncts at a concrete refresh, a concrete
polling loop and a concrete completed request. -/
theorem status_reflects_most_recent_poll_witness :
    dget (aura_inst_state testDict "running" "T9").1 "status" = some "running" ∧
    dget testDictAfter "status" = some (testEnvResume.status (2 - 1)) ∧
    dget testDictAfter "status" = some (testEnvResume.status
      (countGets [Ev.get "apiBase/abc", Ev.post "apiBase/abc/resume",
        Ev.get "apiBase/abc"] - 1)) :=
  ⟨status_reflects_most_recent_poll.1 testDict "running" "T9",
   status_reflects_most_recent_poll.2.1 testEnvResume "running" 3 testDict 1
     testDictAfter 2 [Ev.get "apiBase/abc"] (by decide),
   status_reflects_most_recent_poll.2.2 testEnvResume "running" 5 testDict
     testDictAfter
     [Ev.get "apiBase/abc", Ev.post "apiBase/abc/resume", Ev.get "apiBase/abc"]
     [requestingMsg testDictRefreshed "running", doneMsg testDictAfter "running"]
     (by decide)⟩

/-- C8: for a mapping holding `aura_api`, `id` and `headers`,
`aura_inst_state` sets exactly the `status` and `info_updated` keys and
leaves every other key-value pair unchanged (the updated mapping is what
it returns). -/
theorem aura_inst_state_frame (d : Dict) (st t : String)
    (h1 : (dget d "aura_api").isSome = true)
    (h2 : (dget d "id").isSome = true)
    (h3 : (dget d "headers").isSome = true) :
    dget (aura_inst_state d st t).1 "status" = some st ∧
    dget (aura_inst_state d st t).1 "info_updated" = some t ∧
    (∀ key, key ≠ "status" → key ≠ "info_updated" →
      dget (aura_inst_state d st t).1 key = dget d key) :=
  ⟨state_status d st t, state_updated d st t,
   fun key hs hu => state_frame d st t key hs hu⟩

/-- Witness for C8: a concrete refresh of `testDict`. -/
theorem aura_inst_state_frame_witness :
    dget (aura_inst_state testDict "running" "T7").1 "status" = some "running" ∧
    dget (aura_inst_state testDict "running" "T7").1 "info_updated" = some "T7" ∧
    (∀ key, key ≠ "status" → key ≠ "info_updated" →
      dget (aura_inst_state testDict "running" "T7").1 key = dget testDict key) :=
  aura_inst_state_frame testDict "running" "T7" (by decide) (by decide) (by decide)

/-- C10: the divmod decomposition of `timedelta.seconds` yields `hh`,
`mm`, `ss` with `ss < 60`, `mm < 60` and
`hh*3600 + mm*60 + ss = total % 86400`; it equals the true elapsed whole
seconds exactly when the transition took less than 24 hours, whole days
being dropped by `.seconds`. -/
theorem elapsed_hms_spec (total : Nat) :
    (elapsed_hms total).2.2 < 60 ∧
    (elapsed_hms total).2.1 < 60 ∧
    (elapsed_hms total).1 * 3600 + (elapsed_hms total).2.1 * 60 +
      (elapsed_hms total).2.2 = total % 86400 ∧
    (total < 86400 →
      (elapsed_hms total).1 * 3600 + (elapsed_hms total).2.1 * 60 +
        (elapsed_hms total).2.2 = total) ∧
    (86400 ≤ total →
      (elapsed_hms total).1 * 3600 + (elapsed_hms total).2.1 * 60 +
        (elapsed_hms total).2.2 ≠ total) := by
  simp only [elapsed_hms, timedelta_seconds]
  omega

/-- Witness for C10: the decomposition at 90061 seconds (one day, one
hour, one minute, one second). -/
theorem elapsed_hms_spec_witness :
    (elapsed_hms 90061).2.2 < 60 ∧
    (elapsed_hms 90061).2.1 < 60 ∧
    (elapsed_hms 90061).1 * 3600 + (elapsed_hms 90061).2.1 * 60 +
      (elapsed_hms 90061).2.2 = 90061 % 86400 ∧
    (90061 < 86400 →
      (elapsed_hms 90061).1 * 3600 + (elapsed_hms 90061).2.1 * 60 +
        (elapsed_hms 90061).2.2 = 90061) ∧
    (86400 ≤ 90061 →
      (elapsed_hms 90061).1 * 3600 + (elapsed_hms 90061).2.1 * 60 +
        (elapsed_hms 90061).2.2 ≠ 90061) :=
  elapsed_hms_spec 90061

/-- C7: for a `None` path or a path naming no existing file,
`read_neo4j_properties` prints the error message and returns `None`
instead of the five-element credentials tuple, and `aura_api_connect`,
which unpacks the result as a 5-tuple, crashes on that return value. -/
theorem read_neo4j_properties_missing_file (fileExists : String → Bool)
    (getConfig : String → AuraConfig) (access_token : String)
    (instData : Dict) (now_ : String) (path : Option String)
    (h : path = none ∨ ∃ p, path = some p ∧ fileExists p = false) :
    (read_neo4j_properties fileExists getConfig path).2 = none ∧
    (read_neo4j_properties fileExists getConfig path).1 = [missingFileMsg] ∧
    aura_api_connect fileExists getConfig access_token instData now_ path =
      .error "TypeError: cannot unpack non-iterable NoneType object" := by
  have hread : read_neo4j_properties fileExists getConfig path =
      ([missingFileMsg], none) := by
    rcases h with h | ⟨p, hp, hfe⟩
    · subst h
      rfl
    · subst hp
      simp [read_neo4j_properties, hfe]
  refine ⟨by rw [hread], by rw [hread], ?_⟩
  simp only [aura_api_connect, hread]

/-- Witness for C7: a non-existent credentials file. -/
theorem read_neo4j_properties_missing_file_witness :
    (read_neo4j_properties (fun _ => false)
      (fun _ => AuraConfig.mk "" "" "" "" "") (some "neo4jConfig.ini")).2 = none ∧
    (read_neo4j_properties (fun _ => false)
      (fun _ => AuraConfig.mk "" "" "" "" "") (some "neo4jConfig.ini")).1 =
      [missingFileMsg] ∧
    aura_api_connect (fun _ => false) (fun _ => AuraConfig.mk "" "" "" "" "")
      "tok" [] "T0" (some "neo4jConfig.ini") =
      .error "TypeError: cannot unpack non-iterable NoneType object" :=
  read_neo4j_properties_missing_file (fun _ => false)
    (fun _ => AuraConfig.mk "" "" "" "" "") "tok" [] "T0"
    (some "neo4jConfig.ini") (Or.inr ⟨"neo4jConfig.ini", rfl, rfl⟩)

/-! ## `aura_inst_id`: Python `find` and slice facts -/

theorem patAt_append (pat : List Char) :
    ∀ hay, patAt pat hay = true → ∃ rest, hay = pat ++ rest := by
  induction pat with
  | nil =>
    intro hay _
    exact ⟨hay, rfl⟩
  | cons p ps ih =>
    intro hay h
    cases hay with
    | nil => simp [patAt] at h
    | cons c cs =>
      simp only [patAt, Bool.and_eq_true, decide_eq_true_eq] at h
      obtain ⟨hpc, hrest⟩ := h
      subst hpc
      obtain ⟨rest, hr⟩ := ih cs hrest
      exact ⟨rest, by rw [hr]; rfl⟩

theorem findAt_some (pat : List Char) :
    ∀ hay n, findAt pat hay = some n →
      patAt pat (hay.drop n) = true ∧
      ∀ m, m < n → patAt pat (hay.drop m) = false := by
  intro hay
  induction hay with
  | nil =>
    intro n h
    simp only [findAt] at h
    split at h
    · rename_i hp
      obtain rfl : 0 = n := by simpa using h
      exact ⟨hp, fun m hm => absurd hm (by omega)⟩
    · exact absurd h (by simp)
  | cons c cs ih =>
    intro n h
    simp only [findAt] at h
    split at h
    · rename_i hp
      obtain rfl : 0 = n := by simpa using h
      exact ⟨hp, fun m hm => absurd hm (by omega)⟩
    · rename_i hp
      cases hfind : findAt pat cs with
      | none =>
        rw [hfind] at h
        exact absurd h (by simp)
      | some n' =>
        rw [hfind] at h
        obtain rfl : n' + 1 = n := by simpa using h
        obtain ⟨hpf, hmin⟩ := ih n' hfind
        refine ⟨by simpa using hpf, ?_⟩
        intro m hm
        cases m with
        | zero =>
          simp only [List.drop_zero]
          exact Bool.eq_false_iff.mpr hp
        | succ m' =>
          simpa using hmin m' (by omega)

/-- C9: when `//` occurs in the string and the first `.` of the string
occurs after the first `//`, `aura_inst_id` returns the substring
strictly between the end of the first `//` and that first `.`. -/
theorem aura_inst_id_extracts (s : String) (i j : Nat)
    (hslash : findAt "//".data s.data = some i)
    (hdot : findAt ".".data s.data = some j)
    (hij : i < j) :
    aura_inst_id s = String.mk ((s.data.take j).drop (i + 2)) := by
  obtain ⟨hpi, _⟩ := findAt_some _ _ _ hslash
  obtain ⟨hpj, _⟩ := findAt_some _ _ _ hdot
  obtain ⟨r2, hr2⟩ := patAt_append _ _ hpi
  obtain ⟨r1, hr1⟩ := patAt_append _ _ hpj
  have hlen2 : i + 2 ≤ s.data.length := by
    have hl := congrArg List.length hr2
    rw [List.length_drop, List.length_append] at hl
    have h2l : ("//".data).length = 2 := rfl
    rw [h2l] at hl
    omega
  have hlenj : j < s.data.length := by
    have hl := congrArg List.length hr1
    rw [List.length_drop, List.length_append] at hl
    have h1l : (".".data).length = 1 := rfl
    rw [h1l] at hl
    omega
  have hij2 : i + 2 ≤ j := by
    by_contra hlt
    have hj : j = i + 1 := by omega
    subst hj
    have h1 : List.drop (i + 1) s.data = List.drop 1 (List.drop i s.data) := by
      rw [List.drop_drop]
    rw [hr1, hr2] at h1
    have : ('.' : Char) = '/' := by
      have h2 := congrArg (fun l => l.headI) h1
      simpa using h2
    exact absurd this (by decide)
  have hf2 : pyFind s "//" = (i : Int) := by simp [pyFind, hslash]
  have hf1 : pyFind s "." = (j : Int) := by simp [pyFind, hdot]
  simp only [aura_inst_id]
  rw [hf2, hf1]
  simp only [pySlice]
  rw [if_neg (by omega), if_neg (by omega)]
  have ha : (max 0 (min ((i : Int) + 2) ((s.data.length : Nat) : Int))).toNat = i + 2 := by
    omega
  have hb : (max 0 (min ((j : Nat) : Int) ((s.data.length : Nat) : Int))).toNat = j := by
    omega
  rw [ha, hb]

/-- Witness for C9: the documented connection-URI shape yields the
instance id. -/
theorem aura_inst_id_extracts_witness :
    aura_inst_id "neo4j+s://abc123.databases.neo4j.io" = "abc123" := by
  rw [aura_inst_id_extracts "neo4j+s://abc123.databases.neo4j.io" 8 16
    (by decide) (by decide) (by decide)]
  rfl
